import Mathlib
/-!
Shallow embedding of the indown.io scraper service (src/main.py) and proofs
about its specification claims.

The embedding models, from the source:
- the anchor-text quality classification and duplicate-label suffixing
  (`download_media_from_instagram`, lines 325-353),
- per-block link extraction and media-item assembly (lines 307-373),
- the zero-item failure dispatch (lines 384-396),
- the initial form-token scrape (`get_initial_form_data`, lines 63-101),
- the Cloudinary re-host path (`upload_to_cloudinary`, lines 103-189),
  with the external provider (network, upload response, URL transformation)
  abstracted as oracle functions in a `CloudEnv` record.
Strings are modelled over ASCII: Python `.lower()` / `.strip()` become
character-wise lowering and whitespace trimming on `List Char`.
-/

namespace InDown

/-- Is the pattern a prefix of the character list? Models the start of a
Python substring test. -/
def strStarts : List Char → List Char → Bool
  | [], _ => true
  | _ :: _, [] => false
  | a :: as, b :: bs => a == b && strStarts as bs

/-- Does the character list contain the pattern as a contiguous substring? -/
def listContainsSub (p : List Char) : List Char → Bool
  | [] => strStarts p []
  | c :: cs => strStarts p (c :: cs) || listContainsSub p cs

/-- Python `pat in t` substring membership. -/
def strContains (t pat : String) : Bool :=
  listContainsSub pat.data t.data

/-- Python `s.endswith(pat)`. -/
def strEndsWith (s pat : String) : Bool :=
  s.data.drop (s.data.length - pat.data.length) == pat.data

/-- ASCII whitespace, as stripped by `get_text(strip=True)`. -/
def isSpaceChar (c : Char) : Bool :=
  c == ' ' || c == '\t' || c == '\n' || c == '\r'

/-- Python `s.strip()` on ASCII whitespace. -/
def strTrim (s : String) : String :=
  String.mk (((s.data.dropWhile isSpaceChar).reverse.dropWhile isSpaceChar).reverse)

/-- Python `s.lower()` restricted to ASCII letters. -/
def lowerStr (s : String) : String :=
  String.mk (s.data.map Char.toLower)

/-- Decimal digit character for a digit value 0-9. -/
def digitChar : Nat → Char
  | 0 => '0'
  | 1 => '1'
  | 2 => '2'
  | 3 => '3'
  | 4 => '4'
  | 5 => '5'
  | 6 => '6'
  | 7 => '7'
  | 8 => '8'
  | _ => '9'

/-- Numeric value of a decimal digit character. -/
def digitVal : Char → Nat
  | '0' => 0
  | '1' => 1
  | '2' => 2
  | '3' => 3
  | '4' => 4
  | '5' => 5
  | '6' => 6
  | '7' => 7
  | '8' => 8
  | _ => 9

/-- Decimal digits of `n`, most significant first, with explicit fuel. -/
def natDecimalAux : Nat → Nat → List Char
  | 0, _ => []
  | fuel + 1, n =>
    if n < 10 then [digitChar n]
    else natDecimalAux fuel (n / 10) ++ [digitChar (n % 10)]

/-- Decimal rendering of a natural number, as Python's f-string does. -/
def natDecimal (n : Nat) : String :=
  String.mk (natDecimalAux (n + 1) n)

/-- Decode a most-significant-first decimal digit list. -/
def decodeDigits (l : List Char) : Nat :=
  l.foldl (fun acc c => acc * 10 + digitVal c) 0

/-- The suffixed key `f"{base}_{counter}"` from the duplicate-label loop. -/
def suffixKey (base : String) (counter : Nat) : String :=
  base ++ "_" ++ natDecimal counter

/-- The `while quality_key in download_links` retry loop, with fuel; the fuel
is always sufficient (see `uniqueKey_not_mem`), so the fuel-exhausted branch
returns the next candidate unchecked without affecting faithfulness. -/
def uniqueKeyFrom (keys : List String) (base : String) : Nat → Nat → String
  | 0, counter => suffixKey base counter
  | fuel + 1, counter =>
    if suffixKey base counter ∈ keys then uniqueKeyFrom keys base fuel (counter + 1)
    else suffixKey base counter

/-- Duplicate-label disambiguation: keep `base` if unused, else append `_1`,
`_2`, ... until the key is not already present (main.py lines 346-351). -/
def uniqueKey (keys : List String) (base : String) : String :=
  if base ∈ keys then uniqueKeyFrom keys base keys.length 1 else base

/-- An anchor element with an href attribute inside a button group:
its visible text and its href. -/
structure Anchor where
  text : String
  href : String
deriving DecidableEq

/-- One candidate media block (`div.col-md-4.text-center`): whether it holds a
nested video element, whether it holds a nested img element, its visible text,
and the anchors of its `div.btn-group-vertical` (none when that div is
absent). -/
structure Block where
  hasVideoTag : Bool
  hasImgTag : Bool
  blockText : String
  btnGroup : Option (List Anchor)
deriving DecidableEq

/-- The MediaItem pydantic model: download links and cloudinary URLs are
insertion-ordered key/value lists, as Python dicts are. -/
structure MediaItem where
  media_number : Nat
  media_type : String
  download_links : List (String × String)
  cloudinary_urls : List (String × String)
deriving DecidableEq

/-- The DownloadResponse pydantic model. -/
structure DownloadResponse where
  total_media_count : Nat
  media_items : List MediaItem
deriving DecidableEq

/-- Caller-visible failure kinds of the request, one per distinct
HTTPException site of `download_media_from_instagram` after the POST. -/
inductive ApiError where
  | upstreamReported (msg : String)
  | challengeDetected
  | accessDenied
  | invalidUpstreamTarget
  | notFound
  | noMediaExtracted
deriving DecidableEq

/-- Failure kinds of `get_initial_form_data`. -/
inductive FormError where
  | challengeDetected
  | formNotFound
  | fieldMissing (field : String)
deriving DecidableEq

/-- First-match lookup in an ordered key/value list (Python dict access). -/
def lookupField (k : String) : List (String × String) → Option String
  | [] => none
  | (k2, v) :: rest => if k2 = k then some v else lookupField k rest

/-- The Cloudinary side of the world: the three configured credentials and
two oracles for the external provider. `uploadResp` models
`cloudinary.uploader.upload` on (media_url, media_type, media_number,
quality): `none` is a raised exception (network or provider error), `some r`
the response dict. `transformUrl` models the optimized-delivery URL build on
(upload response, resource_type): `none` is a raised exception. -/
structure CloudEnv where
  cloudName : String
  apiKey : String
  apiSecret : String
  uploadResp : String → String → Nat → String → Option (List (String × String))
  transformUrl : List (String × String) → String → Option String

/-- `upload_to_cloudinary` (main.py lines 103-189): skip unless the URL ends
with `&dl=1`; skip when any credential is falsy (empty); treat a provider
exception or a response without `secure_url` as failure (`None`); on success
prefer the optimized URL, falling back to `secure_url` when the
transformation step raises. -/
def upload_to_cloudinary (env : CloudEnv) (media_url media_type : String)
    (media_number : Nat) (quality : String) : Option String :=
  if strEndsWith media_url "&dl=1" = false then none
  else if env.cloudName = "" ∨ env.apiKey = "" ∨ env.apiSecret = "" then none
  else
    match env.uploadResp media_url media_type media_number quality with
    | none => none
    | some uploadResult =>
      match lookupField "secure_url" uploadResult with
      | none => none
      | some secureUrl =>
        match env.transformUrl uploadResult (if media_type = "video" then "video" else "image") with
        | some optimizedUrl => some optimizedUrl
        | none => some secureUrl

/-- Keyword classification of one anchor's lowered, trimmed text
(main.py lines 330-344), first matching group wins. -/
def classifyQuality (link_text : String) (link_idx : Nat) : String :=
  if ["high", "hd", "1080p", "720p", "full"].any (fun k => strContains link_text k) then
    "high_quality"
  else if ["low", "sd", "480p", "360p", "small"].any (fun k => strContains link_text k) then
    "low_quality"
  else if ["original", "source", "raw"].any (fun k => strContains link_text k) then
    "original"
  else if ["thumbnail", "thumb", "preview"].any (fun k => strContains link_text k) then
    "thumbnail"
  else if ["medium", "mid", "standard"].any (fun k => strContains link_text k) then
    "medium_quality"
  else if strContains link_text "download" then
    "standard_download"
  else
    "download_option_" ++ natDecimal (link_idx + 1)

/-- The quality key chosen for one anchor given the links recorded so far:
classify the stripped, lowered anchor text, then disambiguate duplicates. -/
def stepKey (download_links : List (String × String)) (link : Anchor) (link_idx : Nat) : String :=
  uniqueKey (download_links.map Prod.fst) (classifyQuality (lowerStr (strTrim link.text)) link_idx)

/-- Record the cloudinary URL for this key only when the upload returned one
(main.py lines 357-360). -/
def stepCloud (env : CloudEnv) (media_type : String) (media_number : Nat)
    (cloudinary_urls : List (String × String)) (quality_key url : String) :
    List (String × String) :=
  match upload_to_cloudinary env url media_type media_number quality_key with
  | some cloudinary_url => cloudinary_urls ++ [(quality_key, cloudinary_url)]
  | none => cloudinary_urls

/-- The `for link_idx, link_tag in enumerate(links_in_group)` loop
(main.py lines 325-360), threading the two dicts. -/
def processAnchorsGo (env : CloudEnv) (media_type : String) (media_number : Nat) :
    Nat → List (String × String) → List (String × String) → List Anchor →
    List (String × String) × List (String × String)
  | _, download_links, cloudinary_urls, [] => (download_links, cloudinary_urls)
  | link_idx, download_links, cloudinary_urls, link :: rest =>
    processAnchorsGo env media_type media_number (link_idx + 1)
      (download_links ++ [(stepKey download_links link link_idx, link.href)])
      (stepCloud env media_type media_number cloudinary_urls
        (stepKey download_links link link_idx) link.href)
      rest

/-- Process all anchors of one block, yielding (download_links,
cloudinary_urls). -/
def processAnchors (env : CloudEnv) (media_type : String) (media_number : Nat)
    (links_in_group : List Anchor) : List (String × String) × List (String × String) :=
  processAnchorsGo env media_type media_number 0 [] [] links_in_group

/-- Media-type detection (main.py lines 311-315): video tag or a "video"
substring in the visible text means video, else image. -/
def mediaTypeOf (item : Block) : String :=
  if item.hasVideoTag || strContains (lowerStr item.blockText) "video" then "video"
  else if item.hasImgTag then "image"
  else "image"

/-- One iteration of the block loop (main.py lines 307-373): drop the block
when the button group is absent or no links were recorded, else build the
MediaItem with `media_number = item_idx + 1`. -/
def processBlock (env : CloudEnv) (item_idx : Nat) (item : Block) : Option MediaItem :=
  match item.btnGroup with
  | none => none
  | some links_in_group =>
    if (processAnchors env (mediaTypeOf item) (item_idx + 1) links_in_group).1 = [] then none
    else
      some ⟨item_idx + 1, mediaTypeOf item,
        (processAnchors env (mediaTypeOf item) (item_idx + 1) links_in_group).1,
        (processAnchors env (mediaTypeOf item) (item_idx + 1) links_in_group).2⟩

/-- The enumerated block loop, keeping surviving items in document order. -/
def extractItemsFrom (env : CloudEnv) : Nat → List Block → List MediaItem
  | _, [] => []
  | item_idx, item :: rest =>
    match processBlock env item_idx item with
    | some m => m :: extractItemsFrom env (item_idx + 1) rest
    | none => extractItemsFrom env (item_idx + 1) rest

/-- All surviving MediaItems of the result container's blocks. -/
def extractItems (env : CloudEnv) (blocks : List Block) : List MediaItem :=
  extractItemsFrom env 0 blocks

/-- The parsed POST result page: the text of an `alert-danger`/`alert-warning`
div when present, the blocks of `div#result` when present, and the full body
text. -/
structure ResultPage where
  alert : Option String
  resultContainer : Option (List Block)
  bodyText : String

/-- Challenge markers: the fixed phrase matched case-sensitively, the word
"captcha" matched against the lowered body. -/
def hasChallengeMarkers (text : String) : Bool :=
  strContains text "Verify you are human" || strContains (lowerStr text) "captcha"

/-- The zero-item failure dispatch (main.py lines 384-396), in priority
order over the lowered result-page text. -/
def noMediaFailure (response_text : String) : ApiError :=
  if strContains (lowerStr response_text) "private account" then ApiError.accessDenied
  else if strContains (lowerStr response_text) "link you entered is invalid" then
    ApiError.invalidUpstreamTarget
  else if strContains (lowerStr response_text) "no media found" then ApiError.notFound
  else ApiError.noMediaExtracted

/-- The categorized media of a result page: the surviving items of the
container's blocks, or nothing when the container is absent. -/
def categorizedMedia (env : CloudEnv) (page : ResultPage) : List MediaItem :=
  match page.resultContainer with
  | some blocks => extractItems env blocks
  | none => []

/-- Steps 4-5 of `download_media_from_instagram` after the POST (main.py
lines 291-402): alert div first, then challenge check when the container is
missing, then assembly, then the zero-item failure dispatch. -/
def parseResultPage (env : CloudEnv) (page : ResultPage) : Except ApiError DownloadResponse :=
  match page.alert with
  | some errorText => Except.error (ApiError.upstreamReported errorText)
  | none =>
    if page.resultContainer = none ∧ hasChallengeMarkers page.bodyText = true then
      Except.error ApiError.challengeDetected
    else if categorizedMedia env page = [] then
      Except.error (noMediaFailure page.bodyText)
    else
      Except.ok ⟨(categorizedMedia env page).length, categorizedMedia env page⟩

/-- An input tag of the download form: its name, and its value attribute
when present. -/
structure InputTag where
  name : String
  value : Option String
deriving DecidableEq

/-- The parsed home page: the input tags of `form#downloadForm` when that
form is present, and the full body text. -/
structure HomePage where
  downloadForm : Option (List InputTag)
  bodyText : String
deriving DecidableEq

/-- `form.find('input', {'name': field_name})`: first input with the name. -/
def findInput (inputs : List InputTag) (field_name : String) : Option InputTag :=
  inputs.find? (fun t => t.name == field_name)

/-- The four required hidden fields, in scrape order. -/
def requiredFields : List String := ["referer", "locale", "p", "_token"]

/-- The field loop of `get_initial_form_data` (main.py lines 89-99): fail on
the first field that is missing or lacks a value attribute, else accumulate
the scraped pairs in order. -/
def scrapeFields (inputs : List InputTag) :
    List String → List (String × String) → Except FormError (List (String × String))
  | [], scraped_data => Except.ok scraped_data
  | field_name :: rest, scraped_data =>
    match findInput inputs field_name with
    | none => Except.error (FormError.fieldMissing field_name)
    | some input_tag =>
      match input_tag.value with
      | none => Except.error (FormError.fieldMissing field_name)
      | some v => scrapeFields inputs rest (scraped_data ++ [(field_name, v)])

/-- `get_initial_form_data` (main.py lines 63-101) after a successful GET:
form lookup, challenge check when absent, then the field scrape. -/
def get_initial_form_data (page : HomePage) : Except FormError (List (String × String)) :=
  match page.downloadForm with
  | none =>
    if strContains page.bodyText "Verify you are human" = true ∨
        strContains (lowerStr page.bodyText) "captcha" = true then
      Except.error FormError.challengeDetected
    else
      Except.error FormError.formNotFound
  | some inputs => scrapeFields inputs requiredFields []

/-- The POST payload (main.py lines 245-251): the four scraped values looked
up with `.get` (hence optional), plus the validated link. -/
def buildPayload (form_data : List (String × String)) (link : String) :
    List (String × Option String) :=
  [("referer", lookupField "referer" form_data),
   ("locale", lookupField "locale" form_data),
   ("p", lookupField "p" form_data),
   ("_token", lookupField "_token" form_data),
   ("link", some link)]

/-- Value placed in the payload under a key. -/
def payloadGet (payload : List (String × Option String)) (k : String) : Option String :=
  match payload.find? (fun p => p.1 == k) with
  | some p => p.2
  | none => none

/-- A fixed environment with empty credentials and inert provider oracles. -/
def noCloud : CloudEnv :=
  ⟨"", "", "", fun _ _ _ _ => none, fun _ _ => none⟩

/-- A configured environment whose provider upload succeeds with a fixed
response and whose transformation step raises. -/
def okEnv : CloudEnv :=
  ⟨"c", "k", "s",
    fun _ _ _ _ => some [("secure_url", "scu"), ("public_id", "pid")],
    fun _ _ => none⟩

/-- The label sequence computed by the anchor loop, as a pure function of the
anchor texts and the starting index: classification then duplicate
disambiguation, in order. -/
def keysGo : Nat → List String → List String → List String
  | _, keys, [] => keys
  | link_idx, keys, t :: rest =>
    keysGo (link_idx + 1)
      (keys ++ [uniqueKey keys (classifyQuality (lowerStr (strTrim t)) link_idx)]) rest

/-- Python `os.environ.get(name, default)` over a modelled environment. -/
def envGetOr (osEnv : List (String × String)) (name dflt : String) : String :=
  match lookupField name osEnv with
  | some v => v
  | none => dflt

/-- The module-level credential configuration (main.py lines 38-46): each
credential falls back to a hard-coded default when the variable is absent. -/
def cloudEnvOf (osEnv : List (String × String))
    (uploadResp : String → String → Nat → String → Option (List (String × String)))
    (transformUrl : List (String × String) → String → Option String) : CloudEnv :=
  ⟨envGetOr osEnv "CLOUDINARY_CLOUD_NAME" "ddeazpmcd",
   envGetOr osEnv "CLOUDINARY_API_KEY" "193187914314353",
   envGetOr osEnv "CLOUDINARY_API_SECRET" "g352-BZO2OGstejYakcniC-fbeQ",
   uploadResp, transformUrl⟩

/-- A provider oracle whose upload always succeeds with a fixed response. -/
def demoUpload : String → String → Nat → String → Option (List (String × String)) :=
  fun _ _ _ _ => some [("secure_url", "scu"), ("public_id", "pid")]

/-- A transformation oracle that always raises. -/
def demoTransform : List (String × String) → String → Option String :=
  fun _ _ => none

/-- A configured environment whose provider calls fail (network error). -/
def failEnv : CloudEnv :=
  ⟨"c", "k", "s", fun _ _ _ _ => none, fun _ _ => none⟩

/-- A complete download form for witness instances. -/
def demoInputs : List InputTag :=
  [⟨"referer", some "r"⟩, ⟨"locale", some "en"⟩, ⟨"p", some "pv"⟩, ⟨"_token", some "tv"⟩]

/-- A home page carrying the complete download form. -/
def demoHome : HomePage := ⟨some demoInputs, "b"⟩

/-- The form data scraped from `demoHome`. -/
def demoFormData : List (String × String) :=
  [("referer", "r"), ("locale", "en"), ("p", "pv"), ("_token", "tv")]

/-- Anchors of a demo block: one re-hostable href, one plain href. -/
def demoAnchors : List Anchor := [⟨"HD Download", "u1&dl=1"⟩, ⟨"SD", "u2"⟩]

/-- A demo block holding `demoAnchors`. -/
def demoBlock : Block := ⟨false, false, "", some demoAnchors⟩

/-- A demo result page with one surviving block. -/
def demoPage : ResultPage := ⟨none, some [demoBlock], "body"⟩

/-- The MediaItem produced from `demoBlock` under `okEnv`. -/
def demoItem : MediaItem :=
  ⟨1, "image", [("high_quality", "u1&dl=1"), ("low_quality", "u2")], [("high_quality", "scu")]⟩

/-- The response produced from `demoPage` under `okEnv`. -/
def demoResp : DownloadResponse := ⟨1, [demoItem]⟩

/-- Two blocks of which the first is dropped (no button group). -/
def gapBlocks : List Block :=
  [⟨false, false, "", none⟩, ⟨false, false, "", some [⟨"HD", "u"⟩]⟩]

/-- A result page whose first block is dropped. -/
def gapPage : ResultPage := ⟨none, some gapBlocks, ""⟩

/-- A result page with an empty container and a private-account message. -/
def privPage : ResultPage := ⟨none, some [], "This is a Private Account"⟩

theorem digitVal_digitChar (d : Nat) (h : d < 10) : digitVal (digitChar d) = d := by
  interval_cases d <;> rfl

theorem decodeDigits_append_one (xs : List Char) (c : Char) :
    decodeDigits (xs ++ [c]) = decodeDigits xs * 10 + digitVal c := by
  simp [decodeDigits, List.foldl_append]

theorem decode_natDecimalAux : ∀ fuel n, n < fuel → decodeDigits (natDecimalAux fuel n) = n := by
  intro fuel
  induction fuel with
  | zero => intro n h; omega
  | succ fuel ih =>
    intro n h
    rw [natDecimalAux]
    by_cases h10 : n < 10
    · rw [if_pos h10]
      simp [decodeDigits, digitVal_digitChar n h10]
    · rw [if_neg h10]
      have hlt : n / 10 < n := Nat.div_lt_self (by omega) (by omega)
      rw [decodeDigits_append_one, ih (n / 10) (by omega),
        digitVal_digitChar (n % 10) (Nat.mod_lt _ (by omega))]
      omega

theorem natDecimal_inj {m n : Nat} (h : natDecimal m = natDecimal n) : m = n := by
  have hd : natDecimalAux (m + 1) m = natDecimalAux (n + 1) n := by
    have := congrArg String.data h
    simpa [natDecimal] using this
  have h1 := decode_natDecimalAux (m + 1) m (by omega)
  have h2 := decode_natDecimalAux (n + 1) n (by omega)
  rw [hd, h2] at h1
  omega

theorem suffixKey_inj (base : String) {i j : Nat} (h : suffixKey base i = suffixKey base j) :
    i = j := by
  have hdata := congrArg String.data h
  simp only [suffixKey, String.data_append, List.append_assoc] at hdata
  have hlist : (natDecimal i).data = (natDecimal j).data :=
    List.append_cancel_left (List.append_cancel_left hdata)
  apply natDecimal_inj
  show natDecimal i = natDecimal j
  cases hni : natDecimal i with
  | mk di =>
    cases hnj : natDecimal j with
    | mk dj =>
      rw [hni, hnj] at hlist
      exact congrArg String.mk (by simpa using hlist)

theorem uniqueKeyFrom_not_mem (keys : List String) (base : String) :
    ∀ fuel counter, (∃ j, counter ≤ j ∧ j ≤ counter + fuel ∧ suffixKey base j ∉ keys) →
      uniqueKeyFrom keys base fuel counter ∉ keys := by
  intro fuel
  induction fuel with
  | zero =>
    intro c h
    obtain ⟨j, h1, h2, h3⟩ := h
    have hj : j = c := by omega
    rw [uniqueKeyFrom]
    exact hj ▸ h3
  | succ fuel ih =>
    intro c h
    obtain ⟨j, h1, h2, h3⟩ := h
    rw [uniqueKeyFrom]
    by_cases hc : suffixKey base c ∈ keys
    · rw [if_pos hc]
      apply ih
      refine ⟨j, ?_, by omega, h3⟩
      rcases Nat.eq_or_lt_of_le h1 with heq | hlt
      · exact absurd (heq ▸ hc) h3
      · omega
    · rw [if_neg hc]
      exact hc

theorem exists_fresh_suffix (keys : List String) (base : String) :
    ∃ j, 1 ≤ j ∧ j ≤ 1 + keys.length ∧ suffixKey base j ∉ keys := by
  by_contra hall
  push_neg at hall
  have hsub : ((List.range' 1 (keys.length + 1)).map (suffixKey base)) ⊆ keys := by
    intro x hx
    simp only [List.mem_map] at hx
    obtain ⟨j, hj, rfl⟩ := hx
    rw [List.mem_range'_1] at hj
    exact hall j hj.1 (by omega)
  have hnd : ((List.range' 1 (keys.length + 1)).map (suffixKey base)).Nodup := by
    exact List.Nodup.map (fun a b hab => suffixKey_inj base hab) (List.nodup_range' _ _)
  have hlen := (List.Nodup.subperm hnd hsub).length_le
  simp [List.length_range'] at hlen

theorem uniqueKey_not_mem (keys : List String) (base : String) :
    uniqueKey keys base ∉ keys := by
  rw [uniqueKey]
  by_cases hb : base ∈ keys
  · rw [if_pos hb]
    apply uniqueKeyFrom_not_mem
    obtain ⟨j, h1, h2, h3⟩ := exists_fresh_suffix keys base
    exact ⟨j, h1, by omega, h3⟩
  · rw [if_neg hb]
    exact hb

theorem upload_none_of_not_dl1 (env : CloudEnv) (url mt : String) (mn : Nat) (q : String)
    (h : strEndsWith url "&dl=1" = false) :
    upload_to_cloudinary env url mt mn q = none := by
  rw [upload_to_cloudinary, if_pos h]

theorem upload_none_of_unconfigured (env : CloudEnv) (url mt : String) (mn : Nat) (q : String)
    (h : env.cloudName = "" ∨ env.apiKey = "" ∨ env.apiSecret = "") :
    upload_to_cloudinary env url mt mn q = none := by
  rw [upload_to_cloudinary]
  split_ifs <;> rfl

theorem upload_none_of_resp_none (env : CloudEnv) (url mt : String) (mn : Nat) (q : String)
    (h : env.uploadResp url mt mn q = none) :
    upload_to_cloudinary env url mt mn q = none := by
  rw [upload_to_cloudinary]
  split_ifs <;> simp [h]

theorem upload_none_of_no_secure_url (env : CloudEnv) (url mt : String) (mn : Nat) (q : String)
    (resp2 : List (String × String)) (h : env.uploadResp url mt mn q = some resp2)
    (hsec : lookupField "secure_url" resp2 = none) :
    upload_to_cloudinary env url mt mn q = none := by
  rw [upload_to_cloudinary]
  split_ifs <;> simp [h, hsec]

theorem processAnchorsGo_invariant (env : CloudEnv) (mt : String) (mn : Nat) :
    ∀ links idx dl cu,
      (dl.map Prod.fst).Nodup →
      (∀ k, k ∈ cu.map Prod.fst → k ∈ dl.map Prod.fst) →
      (∀ k u, (k, u) ∈ dl → upload_to_cloudinary env u mt mn k = none → k ∉ cu.map Prod.fst) →
      ((processAnchorsGo env mt mn idx dl cu links).1.map Prod.fst).Nodup ∧
      (∀ k, k ∈ (processAnchorsGo env mt mn idx dl cu links).2.map Prod.fst →
        k ∈ (processAnchorsGo env mt mn idx dl cu links).1.map Prod.fst) ∧
      (∀ k u, (k, u) ∈ (processAnchorsGo env mt mn idx dl cu links).1 →
        upload_to_cloudinary env u mt mn k = none →
        k ∉ (processAnchorsGo env mt mn idx dl cu links).2.map Prod.fst) := by
  intro links
  induction links with
  | nil =>
    intro idx dl cu h1 h2 h3
    exact ⟨h1, h2, h3⟩
  | cons a rest ih =>
    intro idx dl cu h1 h2 h3
    have hfresh : stepKey dl a idx ∉ dl.map Prod.fst := uniqueKey_not_mem _ _
    simp only [processAnchorsGo]
    apply ih
    · simp only [List.map_append, List.map_cons, List.map_nil]
      rw [List.nodup_append]
      refine ⟨h1, List.nodup_singleton _, ?_⟩
      intro x hx hx2
      simp only [List.mem_singleton] at hx2
      exact hfresh (hx2 ▸ hx)
    · intro k hk
      rw [stepCloud] at hk
      cases hup : upload_to_cloudinary env a.href mt mn (stepKey dl a idx) with
      | none =>
        rw [hup] at hk
        simp only [List.map_append, List.mem_append]
        exact Or.inl (h2 k hk)
      | some culr =>
        rw [hup] at hk
        simp only [List.map_append, List.mem_append, List.map_cons, List.map_nil,
          List.mem_singleton] at hk ⊢
        rcases hk with hk | hk
        · exact Or.inl (h2 k hk)
        · exact Or.inr (by simp [hk])
    · intro k u hku hnone
      rw [stepCloud]
      simp only [List.mem_append, List.mem_singleton] at hku
      cases hup : upload_to_cloudinary env a.href mt mn (stepKey dl a idx) with
      | none =>
        rcases hku with hku | hku
        · exact h3 k u hku hnone
        · have hkeq : k = stepKey dl a idx := by
            simpa using congrArg Prod.fst hku
          intro hmem2
          exact hfresh (hkeq ▸ h2 k hmem2)
      | some culr =>
        rcases hku with hku | hku
        · have hk1 : k ∈ dl.map Prod.fst := List.mem_map_of_mem Prod.fst hku
          intro hmem2
          simp only [List.map_append, List.mem_append, List.map_cons, List.map_nil,
            List.mem_singleton] at hmem2
          rcases hmem2 with hmem2 | hmem2
          · exact h3 k u hku hnone hmem2
          · exact hfresh (hmem2 ▸ hk1)
        · have hkeq : k = stepKey dl a idx := by
            simpa using congrArg Prod.fst hku
          have hueq : u = a.href := by
            simpa using congrArg Prod.snd hku
          rw [hkeq, hueq] at hnone
          rw [hnone] at hup
          exact absurd hup (by simp)

theorem processAnchors_invariant (env : CloudEnv) (mt : String) (mn : Nat) (links : List Anchor) :
    ((processAnchors env mt mn links).1.map Prod.fst).Nodup ∧
    (∀ k, k ∈ (processAnchors env mt mn links).2.map Prod.fst →
      k ∈ (processAnchors env mt mn links).1.map Prod.fst) ∧
    (∀ k u, (k, u) ∈ (processAnchors env mt mn links).1 →
      upload_to_cloudinary env u mt mn k = none →
      k ∉ (processAnchors env mt mn links).2.map Prod.fst) := by
  apply processAnchorsGo_invariant env mt mn links 0 [] []
  · exact List.nodup_nil
  · intro k hk
    simp at hk
  · intro k u hku
    simp at hku

theorem processAnchorsGo_mem (env : CloudEnv) (mt : String) (mn : Nat) :
    ∀ links idx dl cu p, p ∈ dl → p ∈ (processAnchorsGo env mt mn idx dl cu links).1 := by
  intro links
  induction links with
  | nil =>
    intro idx dl cu p hp
    exact hp
  | cons a rest ih =>
    intro idx dl cu p hp
    simp only [processAnchorsGo]
    exact ih _ _ _ p (List.mem_append_left _ hp)

theorem processAnchorsGo_covers (env : CloudEnv) (mt : String) (mn : Nat) :
    ∀ links idx dl cu a, a ∈ links →
      ∃ key, (key, a.href) ∈ (processAnchorsGo env mt mn idx dl cu links).1 := by
  intro links
  induction links with
  | nil =>
    intro idx dl cu a ha
    simp at ha
  | cons b rest ih =>
    intro idx dl cu a ha
    rcases List.mem_cons.mp ha with rfl | ha
    · refine ⟨stepKey dl a idx, ?_⟩
      simp only [processAnchorsGo]
      exact processAnchorsGo_mem env mt mn rest _ _ _ _
        (List.mem_append_right _ (by simp))
    · simp only [processAnchorsGo]
      exact ih _ _ _ a ha

theorem processAnchorsGo_fst (env : CloudEnv) (mt : String) (mn : Nat) :
    ∀ links idx dl cu,
      (processAnchorsGo env mt mn idx dl cu links).1.map Prod.fst =
        keysGo idx (dl.map Prod.fst) (links.map Anchor.text) := by
  intro links
  induction links with
  | nil =>
    intro idx dl cu
    rfl
  | cons a rest ih =>
    intro idx dl cu
    simp only [processAnchorsGo, List.map_cons, keysGo]
    rw [ih]
    congr 1
    simp [stepKey]

theorem processAnchorsGo_dl_ext (mt : String) (mn : Nat) :
    ∀ links env env2 idx dl cu cu2,
      (processAnchorsGo env mt mn idx dl cu links).1 =
        (processAnchorsGo env2 mt mn idx dl cu2 links).1 := by
  intro links
  induction links with
  | nil =>
    intro env env2 idx dl cu cu2
    rfl
  | cons a rest ih =>
    intro env env2 idx dl cu cu2
    simp only [processAnchorsGo]
    exact ih env env2 _ _ _ _

theorem processAnchorsGo_cu_const (env : CloudEnv) (mt : String) (mn : Nat)
    (hnone : ∀ url q, upload_to_cloudinary env url mt mn q = none) :
    ∀ links idx dl cu, (processAnchorsGo env mt mn idx dl cu links).2 = cu := by
  intro links
  induction links with
  | nil =>
    intro idx dl cu
    rfl
  | cons a rest ih =>
    intro idx dl cu
    simp only [processAnchorsGo, stepCloud, hnone]
    exact ih _ _ _

theorem processBlock_some (env : CloudEnv) (i : Nat) (b : Block) (m : MediaItem)
    (h : processBlock env i b = some m) :
    m.media_number = i + 1 ∧ m.media_type = mediaTypeOf b ∧ m.download_links ≠ [] ∧
    ∃ g, b.btnGroup = some g ∧
      m.download_links = (processAnchors env (mediaTypeOf b) (i + 1) g).1 ∧
      m.cloudinary_urls = (processAnchors env (mediaTypeOf b) (i + 1) g).2 := by
  cases hg : b.btnGroup with
  | none =>
    simp only [processBlock, hg] at h
    exact absurd h (by simp)
  | some g =>
    simp only [processBlock, hg] at h
    split_ifs at h with hemp
    have hm := Option.some.inj h
    subst hm
    exact ⟨rfl, rfl, fun hc => hemp hc, g, rfl, rfl, rfl⟩

theorem processBlock_proj (env env2 : CloudEnv) (i : Nat) (b : Block) :
    (processBlock env i b).map (fun m => (m.media_number, m.media_type, m.download_links)) =
      (processBlock env2 i b).map (fun m => (m.media_number, m.media_type, m.download_links)) := by
  cases hg : b.btnGroup with
  | none => simp [processBlock, hg]
  | some g =>
    have hdl : (processAnchors env (mediaTypeOf b) (i + 1) g).1 =
        (processAnchors env2 (mediaTypeOf b) (i + 1) g).1 :=
      processAnchorsGo_dl_ext _ _ g env env2 0 [] [] []
    simp only [processBlock, hg, hdl]
    split_ifs with hemp
    · rfl
    · simp

theorem extractItemsFrom_mem_ex (env : CloudEnv) :
    ∀ bs i m, m ∈ extractItemsFrom env i bs → ∃ j b, processBlock env j b = some m := by
  intro bs
  induction bs with
  | nil =>
    intro i m hm
    simp [extractItemsFrom] at hm
  | cons b rest ih =>
    intro i m hm
    rw [extractItemsFrom] at hm
    cases hp : processBlock env i b with
    | none =>
      rw [hp] at hm
      exact ih _ m hm
    | some m0 =>
      rw [hp] at hm
      rcases List.mem_cons.mp hm with rfl | hm
      · exact ⟨i, b, hp⟩
      · exact ih _ m hm

theorem extractItemsFrom_bounds (env : CloudEnv) :
    ∀ bs i m, m ∈ extractItemsFrom env i bs →
      i + 1 ≤ m.media_number ∧ m.media_number ≤ i + bs.length := by
  intro bs
  induction bs with
  | nil =>
    intro i m hm
    simp [extractItemsFrom] at hm
  | cons b rest ih =>
    intro i m hm
    rw [extractItemsFrom] at hm
    cases hp : processBlock env i b with
    | none =>
      rw [hp] at hm
      have := ih _ m hm
      simp only [List.length_cons]
      omega
    | some m0 =>
      rw [hp] at hm
      rcases List.mem_cons.mp hm with rfl | hm
      · have := (processBlock_some env i b m hp).1
        simp only [List.length_cons]
        omega
      · have := ih _ m hm
        simp only [List.length_cons]
        omega

theorem extractItemsFrom_chain (env : CloudEnv) :
    ∀ bs i, List.Chain' (· < ·) ((extractItemsFrom env i bs).map MediaItem.media_number) := by
  intro bs
  induction bs with
  | nil =>
    intro i
    simp [extractItemsFrom]
  | cons b rest ih =>
    intro i
    rw [extractItemsFrom]
    cases hp : processBlock env i b with
    | none => exact ih _
    | some m0 =>
      rw [List.map_cons, List.chain'_cons']
      refine ⟨?_, ih _⟩
      intro y hy
      have hy2 : y ∈ (extractItemsFrom env (i + 1) rest).map MediaItem.media_number :=
        List.mem_of_mem_head? hy
      obtain ⟨m2, hm2, rfl⟩ := List.mem_map.mp hy2
      have hb := extractItemsFrom_bounds env rest (i + 1) m2 hm2
      have hm0 := (processBlock_some env i b m0 hp).1
      omega

theorem extractItemsFrom_range (env : CloudEnv) :
    ∀ bs i,
      (∀ j (hj : j < bs.length), (processBlock env (i + j) (bs.get ⟨j, hj⟩)).isSome = true) →
      (extractItemsFrom env i bs).map MediaItem.media_number = List.range' (i + 1) bs.length := by
  intro bs
  induction bs with
  | nil =>
    intro i _
    rfl
  | cons b rest ih =>
    intro i hall
    have h0 : (processBlock env i b).isSome = true := by
      have := hall 0 (by simp)
      simpa using this
    rw [extractItemsFrom]
    cases hp : processBlock env i b with
    | none =>
      rw [hp] at h0
      simp at h0
    | some m0 =>
      have hshift : ∀ j (hj : j < rest.length),
          (processBlock env (i + 1 + j) (rest.get ⟨j, hj⟩)).isSome = true := by
        intro j hj
        have := hall (j + 1) (by simpa using Nat.succ_lt_succ hj)
        have harith : i + (j + 1) = i + 1 + j := by omega
        rw [harith] at this
        exact this
      rw [List.map_cons, ih (i + 1) hshift]
      have hm0 := (processBlock_some env i b m0 hp).1
      rw [hm0]
      rfl

theorem parse_ok_inv (env : CloudEnv) (page : ResultPage) (resp : DownloadResponse)
    (h : parseResultPage env page = Except.ok resp) :
    page.alert = none ∧ categorizedMedia env page ≠ [] ∧
    resp = ⟨(categorizedMedia env page).length, categorizedMedia env page⟩ := by
  cases halert : page.alert with
  | some msg =>
    simp only [parseResultPage, halert] at h
    exact absurd h (by simp)
  | none =>
    simp only [parseResultPage, halert] at h
    split_ifs at h with hch hemp
    have hresp := Except.ok.inj h
    exact ⟨rfl, hemp, hresp.symm⟩

theorem parse_noMedia (env : CloudEnv) (page : ResultPage)
    (halert : page.alert = none)
    (hch : page.resultContainer = none → hasChallengeMarkers page.bodyText = false)
    (hempty : categorizedMedia env page = []) :
    parseResultPage env page = Except.error (noMediaFailure page.bodyText) := by
  have hnc : ¬(page.resultContainer = none ∧ hasChallengeMarkers page.bodyText = true) := by
    intro hand
    have hfalse := hch hand.1
    rw [hand.2] at hfalse
    simp at hfalse
  simp only [parseResultPage, halert]
  rw [if_neg hnc, if_pos hempty]

theorem extractItemsFrom_proj (env env2 : CloudEnv) :
    ∀ bs i,
      (extractItemsFrom env i bs).map (fun m => (m.media_number, m.media_type, m.download_links)) =
        (extractItemsFrom env2 i bs).map
          (fun m => (m.media_number, m.media_type, m.download_links)) := by
  intro bs
  induction bs with
  | nil =>
    intro i
    rfl
  | cons b rest ih =>
    intro i
    have hq := processBlock_proj env env2 i b
    cases hp1 : processBlock env i b with
    | none =>
      cases hp2 : processBlock env2 i b with
      | none =>
        simp only [extractItemsFrom, hp1, hp2]
        exact ih _
      | some m2 =>
        rw [hp1, hp2] at hq
        simp at hq
    | some m1 =>
      cases hp2 : processBlock env2 i b with
      | none =>
        rw [hp1, hp2] at hq
        simp at hq
      | some m2 =>
        rw [hp1, hp2] at hq
        simp only [Option.map_some'] at hq
        simp only [extractItemsFrom, hp1, hp2, List.map_cons]
        rw [ih]
        congr 1
        exact Option.some.inj hq

/-- C1: the anchor classification is a deterministic function of the trimmed,
lower-cased anchor texts alone (independent of the provider environment and
of the hrefs), matched in the fixed priority order with `_1`, `_2`, ...
suffixes for duplicates; the anchor texts `["HD Download", "hd download",
"SD"]` yield the labels `high_quality`, `high_quality_1`, `low_quality`. -/
theorem C1_classification (env : CloudEnv) (u1 u2 u3 : String) :
    ((processAnchors env "image" 1
        [⟨"HD Download", u1⟩, ⟨"hd download", u2⟩, ⟨"SD", u3⟩]).1).map Prod.fst =
      ["high_quality", "high_quality_1", "low_quality"] := by
  rw [processAnchors, processAnchorsGo_fst]
  simp only [List.map_cons, List.map_nil]
  decide

/-- C4: when the form is present and the scrape succeeds, the payload value
placed under each of the four required field names equals the value attribute
of the first input scraped for that name, and it is present. -/
theorem C4_roundtrip (page : HomePage) (inputs : List InputTag)
    (d : List (String × String)) (link : String)
    (hform : page.downloadForm = some inputs)
    (hok : get_initial_form_data page = Except.ok d) :
    ∀ f ∈ requiredFields,
      payloadGet (buildPayload d link) f = (findInput inputs f).bind (fun t => t.value) ∧
      (findInput inputs f).bind (fun t => t.value) ≠ none := by
  simp only [get_initial_form_data, hform, requiredFields] at hok
  cases h1 : findInput inputs "referer" with
  | none => simp [scrapeFields, h1] at hok
  | some t1 =>
  cases hv1 : t1.value with
  | none => simp [scrapeFields, h1, hv1] at hok
  | some v1 =>
  cases h2 : findInput inputs "locale" with
  | none => simp [scrapeFields, h1, hv1, h2] at hok
  | some t2 =>
  cases hv2 : t2.value with
  | none => simp [scrapeFields, h1, hv1, h2, hv2] at hok
  | some v2 =>
  cases h3 : findInput inputs "p" with
  | none => simp [scrapeFields, h1, hv1, h2, hv2, h3] at hok
  | some t3 =>
  cases hv3 : t3.value with
  | none => simp [scrapeFields, h1, hv1, h2, hv2, h3, hv3] at hok
  | some v3 =>
  cases h4 : findInput inputs "_token" with
  | none => simp [scrapeFields, h1, hv1, h2, hv2, h3, hv3, h4] at hok
  | some t4 =>
  cases hv4 : t4.value with
  | none => simp [scrapeFields, h1, hv1, h2, hv2, h3, hv3, h4, hv4] at hok
  | some v4 =>
  simp only [scrapeFields, h1, hv1, h2, hv2, h3, hv3, h4, hv4, List.nil_append,
    List.cons_append, Except.ok.injEq] at hok
  subst hok
  intro f hf
  simp only [requiredFields, List.mem_cons, List.not_mem_nil, or_false] at hf
  rcases hf with rfl | rfl | rfl | rfl <;>
    simp +decide [buildPayload, payloadGet, lookupField, h1, hv1, h2, hv2, h3, hv3, h4, hv4,
      List.find?]

/-- C4 witness at a concrete home page and field `p`. -/
theorem C4_roundtrip_witness :
    payloadGet (buildPayload demoFormData "https://www.instagram.com/p/x/") "p" =
      (findInput demoInputs "p").bind (fun t => t.value) ∧
    (findInput demoInputs "p").bind (fun t => t.value) ≠ none :=
  C4_roundtrip demoHome demoInputs demoFormData "https://www.instagram.com/p/x/" rfl rfl
    "p" (by decide)

/-- C6: an extracted href that does not end in `&dl=1` is never re-hosted:
the upload helper returns `None` for it regardless of media number and label,
its label is absent from the cloudinary mapping, and every anchor's href is
passed through into the download-links mapping. -/
theorem C6_not_dl1 (env : CloudEnv) (mt : String) (mn : Nat) (links : List Anchor)
    (k u : String)
    (hmem : (k, u) ∈ (processAnchors env mt mn links).1)
    (hdl1 : strEndsWith u "&dl=1" = false) :
    (∀ mn2 q, upload_to_cloudinary env u mt mn2 q = none) ∧
    k ∉ (processAnchors env mt mn links).2.map Prod.fst ∧
    (∀ a ∈ links, ∃ key, (key, a.href) ∈ (processAnchors env mt mn links).1) := by
  refine ⟨fun mn2 q => upload_none_of_not_dl1 env u mt mn2 q hdl1, ?_, ?_⟩
  · exact (processAnchors_invariant env mt mn links).2.2 k u hmem
      (upload_none_of_not_dl1 env u mt mn k hdl1)
  · intro a ha
    exact processAnchorsGo_covers env mt mn links 0 [] [] a ha

/-- C6 witness: the `SD` anchor's href `u2` of the demo block. -/
theorem C6_not_dl1_witness :
    "low_quality" ∉ (processAnchors okEnv "image" 1 demoAnchors).2.map Prod.fst :=
  (C6_not_dl1 okEnv "image" 1 demoAnchors "low_quality" "u2" (by decide) (by decide)).2.1

/-- C7: a href whose re-host attempt fails (for any reason: the provider call
raising is `uploadResp = none`, a response without the expected `secure_url`
field also yields `None`) keeps its label absent from the cloudinary mapping
while its entry in the download-links mapping is untouched (the hypothesis),
and the request as a whole still succeeds. -/
theorem C7_rehost_failure (env : CloudEnv) (mt : String) (mn : Nat) (links : List Anchor)
    (k u : String)
    (hmem : (k, u) ∈ (processAnchors env mt mn links).1)
    (hfail : upload_to_cloudinary env u mt mn k = none) :
    k ∉ (processAnchors env mt mn links).2.map Prod.fst ∧
    (env.uploadResp u mt mn k = none → upload_to_cloudinary env u mt mn k = none) ∧
    (∀ resp2, env.uploadResp u mt mn k = some resp2 →
      lookupField "secure_url" resp2 = none → upload_to_cloudinary env u mt mn k = none) := by
  refine ⟨?_, fun h => upload_none_of_resp_none env u mt mn k h,
    fun resp2 h hsec => upload_none_of_no_secure_url env u mt mn k resp2 h hsec⟩
  exact (processAnchors_invariant env mt mn links).2.2 k u hmem hfail

/-- C7 witness: a `&dl=1` href whose provider call raises. -/
theorem C7_rehost_failure_witness :
    "high_quality" ∉ (processAnchors failEnv "image" 1 [⟨"HD", "u&dl=1"⟩]).2.map Prod.fst :=
  (C7_rehost_failure failEnv "image" 1 [⟨"HD", "u&dl=1"⟩] "high_quality" "u&dl=1"
    (by decide) (by decide)).1

/-- C2 counterexample: when the first of two blocks is dropped, the single
surviving item carries `media_number = 2`, so a successful response with
`N = 1` item does not carry the values `1..N`. -/
theorem C2_counterexample :
    parseResultPage noCloud gapPage =
      Except.ok ⟨1, [⟨2, "image", [("high_quality", "u")], []⟩]⟩ ∧
    ((extractItems noCloud gapBlocks).map MediaItem.media_number = [1] → False) :=
  ⟨rfl, by decide⟩

/-- C2 amended: each returned item's `media_number` is its block's 1-based
position among all candidate blocks, so the sequence is strictly increasing
and bounded by the number of blocks, and it equals `1..N` exactly on pages
where every block survives. -/
theorem C2_amended (env : CloudEnv) (blocks : List Block) :
    List.Chain' (· < ·) ((extractItems env blocks).map MediaItem.media_number) ∧
    (∀ m ∈ extractItems env blocks, 1 ≤ m.media_number ∧ m.media_number ≤ blocks.length) ∧
    ((∀ j (hj : j < blocks.length), (processBlock env j (blocks.get ⟨j, hj⟩)).isSome = true) →
      (extractItems env blocks).map MediaItem.media_number = List.range' 1 blocks.length) := by
  refine ⟨extractItemsFrom_chain env blocks 0, ?_, ?_⟩
  · intro m hm
    have := extractItemsFrom_bounds env blocks 0 m hm
    omega
  · intro hall
    have hres := extractItemsFrom_range env blocks 0 (fun j hj => by
      have := hall j hj
      simpa using this)
    simpa using hres

/-- C2 amended witness: one surviving block yields exactly `[1]`. -/
theorem C2_amended_witness :
    (extractItems noCloud [⟨false, false, "", some [⟨"HD", "u"⟩]⟩]).map MediaItem.media_number =
      List.range' 1 1 :=
  (C2_amended noCloud [⟨false, false, "", some [⟨"HD", "u"⟩]⟩]).2.2 (by
    intro j hj
    simp only [List.length_cons, List.length_nil] at hj
    interval_cases j
    show (processBlock noCloud 0 ⟨false, false, "", some [⟨"HD", "u"⟩]⟩).isSome = true
    decide)

/-- C3 counterexample: a body containing the verification phrase only in
lower case matches it case-insensitively, yet the code reports the
shape-changed failure, not the challenge failure, because the phrase test
is case-sensitive. -/
theorem C3_counterexample :
    strContains (lowerStr "verify you are human") (lowerStr "Verify you are human") = true ∧
    get_initial_form_data ⟨none, "verify you are human"⟩ =
      Except.error FormError.formNotFound :=
  ⟨by decide, rfl⟩

/-- C3 amended: with the form absent, the challenge check takes precedence,
where the fixed phrase is matched case-sensitively and only the word
"captcha" case-insensitively; markers present give `ChallengeDetected`,
absent give `UpstreamShapeChanged`. -/
theorem C3_amended (page : HomePage) (hform : page.downloadForm = none) :
    (hasChallengeMarkers page.bodyText = true →
      get_initial_form_data page = Except.error FormError.challengeDetected) ∧
    (hasChallengeMarkers page.bodyText = false →
      get_initial_form_data page = Except.error FormError.formNotFound) := by
  constructor
  · intro h
    rw [hasChallengeMarkers, Bool.or_eq_true] at h
    simp only [get_initial_form_data, hform]
    rw [if_pos h]
  · intro h
    rw [hasChallengeMarkers, Bool.or_eq_false_iff] at h
    simp only [get_initial_form_data, hform]
    rw [if_neg]
    rintro (hc | hc)
    · rw [h.1] at hc
      exact Bool.false_ne_true hc
    · rw [h.2] at hc
      exact Bool.false_ne_true hc

/-- C3 amended witness: an upper-case CAPTCHA marker is detected via the
lowered body. -/
theorem C3_amended_witness :
    get_initial_form_data ⟨none, "please solve the CAPTCHA to continue"⟩ =
      Except.error FormError.challengeDetected :=
  (C3_amended ⟨none, "please solve the CAPTCHA to continue"⟩ rfl).1 (by decide)

/-- C5 counterexample: with all three credential variables absent from the
environment, the hard-coded fallbacks keep re-hosting enabled, and an
eligible href is uploaded successfully. -/
theorem C5_counterexample :
    lookupField "CLOUDINARY_CLOUD_NAME" ([] : List (String × String)) = none ∧
    lookupField "CLOUDINARY_API_KEY" ([] : List (String × String)) = none ∧
    lookupField "CLOUDINARY_API_SECRET" ([] : List (String × String)) = none ∧
    upload_to_cloudinary (cloudEnvOf [] demoUpload demoTransform)
      "https://x?a=1&dl=1" "image" 1 "high_quality" = some "scu" :=
  ⟨rfl, rfl, rfl, rfl⟩

/-- C5 amended: each credential falls back to a hard-coded default when
absent, so re-hosting is disabled only when some credential value is the
empty string; then no upload is attempted and no cloudinary URL is recorded,
while the scraped items (numbers, types, download links) are identical to
those under any other provider environment. -/
theorem C5_amended (env : CloudEnv)
    (h : env.cloudName = "" ∨ env.apiKey = "" ∨ env.apiSecret = "") :
    (∀ url mt mn q, upload_to_cloudinary env url mt mn q = none) ∧
    (∀ mt mn links, (processAnchors env mt mn links).2 = []) ∧
    (∀ env2 blocks,
      (extractItems env blocks).map (fun m => (m.media_number, m.media_type, m.download_links)) =
        (extractItems env2 blocks).map
          (fun m => (m.media_number, m.media_type, m.download_links))) := by
  refine ⟨fun url mt mn q => upload_none_of_unconfigured env url mt mn q h, ?_, ?_⟩
  · intro mt mn links
    exact processAnchorsGo_cu_const env mt mn
      (fun url q => upload_none_of_unconfigured env url mt mn q h) links 0 [] []
  · intro env2 blocks
    exact extractItemsFrom_proj env env2 blocks 0

/-- C5 amended witness at the empty-credential environment. -/
theorem C5_amended_witness :
    upload_to_cloudinary noCloud "u&dl=1" "image" 1 "q" = none ∧
    (processAnchors noCloud "image" 1 demoAnchors).2 = [] :=
  ⟨(C5_amended noCloud (Or.inl rfl)).1 "u&dl=1" "image" 1 "q",
   (C5_amended noCloud (Or.inl rfl)).2.1 "image" 1 demoAnchors⟩

/-- C8: a successful response never has an empty item list; and when the flow
reaches the zero-item end (no alert, and the container present or no
challenge markers), the failure is chosen from the lowered body text in the
fixed priority order: private account, invalid link, no media found, then
the generic no-media failure. -/
theorem C8_zero_items (env : CloudEnv) (page : ResultPage) :
    (∀ resp, parseResultPage env page = Except.ok resp → resp.media_items ≠ []) ∧
    (page.alert = none →
      (page.resultContainer = none → hasChallengeMarkers page.bodyText = false) →
      categorizedMedia env page = [] →
      (strContains (lowerStr page.bodyText) "private account" = true →
        parseResultPage env page = Except.error ApiError.accessDenied) ∧
      (strContains (lowerStr page.bodyText) "private account" = false →
        strContains (lowerStr page.bodyText) "link you entered is invalid" = true →
        parseResultPage env page = Except.error ApiError.invalidUpstreamTarget) ∧
      (strContains (lowerStr page.bodyText) "private account" = false →
        strContains (lowerStr page.bodyText) "link you entered is invalid" = false →
        strContains (lowerStr page.bodyText) "no media found" = true →
        parseResultPage env page = Except.error ApiError.notFound) ∧
      (strContains (lowerStr page.bodyText) "private account" = false →
        strContains (lowerStr page.bodyText) "link you entered is invalid" = false →
        strContains (lowerStr page.bodyText) "no media found" = false →
        parseResultPage env page = Except.error ApiError.noMediaExtracted)) := by
  constructor
  · intro resp hok
    obtain ⟨halert, hne, hresp⟩ := parse_ok_inv env page resp hok
    rw [hresp]
    exact hne
  · intro halert hch hempty
    have hparse := parse_noMedia env page halert hch hempty
    refine ⟨?_, ?_, ?_, ?_⟩
    · intro hpriv
      rw [hparse, noMediaFailure, if_pos hpriv]
    · intro hpriv hinv
      rw [hparse, noMediaFailure, if_neg (by simp [hpriv]), if_pos hinv]
    · intro hpriv hinv hnom
      rw [hparse, noMediaFailure, if_neg (by simp [hpriv]), if_neg (by simp [hinv]),
        if_pos hnom]
    · intro hpriv hinv hnom
      rw [hparse, noMediaFailure, if_neg (by simp [hpriv]), if_neg (by simp [hinv]),
        if_neg (by simp [hnom])]

/-- C8 witness: a private-account page with an empty container fails with
the access-denied classification. -/
theorem C8_zero_items_witness :
    parseResultPage noCloud privPage = Except.error ApiError.accessDenied :=
  ((C8_zero_items noCloud privPage).2 rfl (by intro h; simp [privPage] at h) rfl).1 (by decide)

/-- C9: every item of a successful response carries a non-empty
download-links mapping, and the reported count equals the number of items. -/
theorem C9_nonempty_links (env : CloudEnv) (page : ResultPage) (resp : DownloadResponse)
    (hok : parseResultPage env page = Except.ok resp) :
    (∀ m ∈ resp.media_items, m.download_links ≠ []) ∧
    resp.total_media_count = resp.media_items.length := by
  obtain ⟨halert, hne, hresp⟩ := parse_ok_inv env page resp hok
  subst hresp
  refine ⟨?_, rfl⟩
  intro m hm
  simp only [categorizedMedia] at hm
  cases hc : page.resultContainer with
  | none =>
    rw [hc] at hm
    simp at hm
  | some blocks =>
    rw [hc] at hm
    obtain ⟨j, b, hp⟩ := extractItemsFrom_mem_ex env blocks 0 m hm
    exact (processBlock_some env j b m hp).2.2.1

/-- C9 witness at the demo page. -/
theorem C9_nonempty_links_witness :
    demoResp.total_media_count = demoResp.media_items.length :=
  (C9_nonempty_links okEnv demoPage demoResp rfl).2

/-- C10: in every item of a successful response, the keys of the cloudinary
mapping form a subset of the keys of the download-links mapping. -/
theorem C10_keys_subset (env : CloudEnv) (page : ResultPage) (resp : DownloadResponse)
    (hok : parseResultPage env page = Except.ok resp) :
    ∀ m ∈ resp.media_items, ∀ k ∈ m.cloudinary_urls.map Prod.fst,
      k ∈ m.download_links.map Prod.fst := by
  obtain ⟨halert, hne, hresp⟩ := parse_ok_inv env page resp hok
  subst hresp
  intro m hm k hk
  simp only [categorizedMedia] at hm
  cases hc : page.resultContainer with
  | none =>
    rw [hc] at hm
    simp at hm
  | some blocks =>
    rw [hc] at hm
    obtain ⟨j, b, hp⟩ := extractItemsFrom_mem_ex env blocks 0 m hm
    obtain ⟨hmn, hmt, hnemp, g, hg, hdl, hcu⟩ := processBlock_some env j b m hp
    rw [hcu] at hk
    rw [hdl]
    exact (processAnchors_invariant env (mediaTypeOf b) (j + 1) g).2.1 k hk

/-- C10 witness: the demo item's re-hosted label is also a download-links
key. -/
theorem C10_keys_subset_witness :
    "high_quality" ∈ demoItem.download_links.map Prod.fst :=
  C10_keys_subset okEnv demoPage demoResp rfl demoItem (by decide) "high_quality" (by decide)

end InDown
